import Mathlib

/-!
Verification of the evaluation-orchestration and grading engine of
`scripts/agent_eval_loop.py` (graphistry-skills).

Shallow embedding conventions:
* JSON values (the shapes flowing through the script's dict-based plumbing)
  are modelled by the inductive `J`; Python distinguishes `int` and `float`
  (and `bool` is a subclass of `int`), so `J` keeps separate constructors.
* Python floats are modelled by `ℚ`; every arithmetic operation the claims
  touch (counting, division by a positive count, clamping, averaging) is
  exact at the values involved.
* External effects that cannot be translated (the `re` regex engine, the
  `ast` parser, the filesystem, `sha256`) enter as explicit parameters:
  a regex oracle `String → String → Except String Bool` (`Except.error` is
  `re.error` raised at compile time, mirroring the `try/except re.error`
  blocks of the source), a pre-extracted first code block plus its parse
  result, a `skill name → Option content` filesystem view, and an abstract
  hash function.  All grading definitions are total Lean functions, which
  is exactly the source's contract: every exception the graders can hit is
  caught and recorded in the breakdown.
-/

set_option autoImplicit false

namespace AgentEval

/-- JSON-ish values as Python represents parsed JSON: `null`/`bool`/`int`/
`float`/`str`/`list`/`dict`.  `bool` is kept separate from `int` even though
Python treats it as a subclass; places where the source relies on
`isinstance(x, int)` accepting `True` handle the `bool` constructor
explicitly. -/
inductive J where
  | null
  | bool (b : Bool)
  | int (n : ℤ)
  | float (q : ℚ)
  | str (s : String)
  | arr (xs : List J)
  | obj (fields : List (String × J))
deriving BEq, Repr

/-- A parsed JSON object (Python `dict[str, Any]`), as an association list. -/
abbrev Payload := List (String × J)

/-- `d.get(k)`: first value bound to `k`, if any. -/
def pget (p : Payload) (k : String) : Option J :=
  match p with
  | [] => none
  | (k', v) :: rest => if k' = k then some v else pget rest k

/-- `d[k] = v`: replace the first binding of `k`, else append. -/
def pset (p : Payload) (k : String) (v : J) : Payload :=
  match p with
  | [] => [(k, v)]
  | (k', v') :: rest => if k' = k then (k', v) :: rest else (k', v') :: pset rest k v

/-- `d.setdefault(k, v)`: insert `v` only when the key is absent. -/
def psetdefault (p : Payload) (k : String) (v : J) : Payload :=
  match pget p k with
  | some _ => p
  | none => p ++ [(k, v)]

/-- Python truthiness of a JSON value (`bool(x)`). -/
def jTruthy : J → Bool
  | .null => false
  | .bool b => b
  | .int n => n != 0
  | .float q => q != 0
  | .str s => s ≠ ""
  | .arr xs => !xs.isEmpty
  | .obj fs => !fs.isEmpty

/-- `bool(d.get(k))`: truthiness of an optional field (absent ⇒ false). -/
def pTruthy (v : Option J) : Bool :=
  match v with
  | none => false
  | some j => jTruthy j

/-- Digits-only string to its numeric value (`none` if empty or non-digit). -/
def digitsVal? (cs : List Char) : Option ℕ :=
  match cs with
  | [] => none
  | _ =>
    cs.foldl
      (fun acc c =>
        match acc with
        | none => none
        | some n => if c.isDigit then some (n * 10 + (c.toNat - '0'.toNat)) else none)
      (some 0)

/-- Model of Python `float(s)` on plain decimal literals: optional sign,
digits with at most one dot, at least one digit (`"5."`, `".5"` accepted).
Exponents, `inf`/`nan`, and underscore separators are not modelled; those
inputs yield `none` (hence the caller's default), which is outside every
claim's scope. -/
def pyFloat? (s : String) : Option ℚ :=
  let cs := s.data
  let (sign, cs') : ℤ × List Char :=
    match cs with
    | '-' :: t => (-1, t)
    | '+' :: t => (1, t)
    | _ => (1, cs)
  match (String.mk cs').splitOn "." with
  | [a] =>
    match digitsVal? a.data with
    | some n => some (sign * (n : ℤ) : ℚ)
    | none => none
  | [a, b] =>
    if a.data = [] ∧ b.data = [] then none
    else
      let ia : Option ℕ := if a.data = [] then some 0 else digitsVal? a.data
      let fb : Option ℚ :=
        if b.data = [] then some 0
        else match digitsVal? b.data with
          | some m => some ((m : ℚ) / ((10 : ℚ) ^ b.length))
          | none => none
      match ia, fb with
      | some n, some f => some ((sign : ℚ) * ((n : ℚ) + f))
      | _, _ => none
  | _ => none

/-- `parse_float(value, default)` from the source: `None` ⇒ default, numbers
(including `bool`, a Python `int`) pass through, strings go through
`float(str(value).strip())` with any failure falling back to the default;
lists/dicts make `float()` raise, which the source catches into the
default. -/
def parse_float (v : Option J) (default : ℚ) : ℚ :=
  match v with
  | none => default
  | some .null => default
  | some (.bool b) => if b then 1 else 0
  | some (.int n) => (n : ℚ)
  | some (.float q) => q
  | some (.str s) => (pyFloat? s.trim).getD default
  | some (.arr _) => default
  | some (.obj _) => default

/-- `parse_bool(value, default)` from the source. -/
def parse_bool (v : Option J) (default : Bool) : Bool :=
  match v with
  | some (.bool b) => b
  | some (.int n) => n != 0
  | some (.float q) => q != 0
  | some (.str s) =>
      let t := s.trim.toLower
      t = "1" ∨ t = "true" ∨ t = "yes" ∨ t = "y" ∨ t = "on"
  | _ => default

/-- `max(0.0, min(1.0, x))`, the clamp used for oracle scores. -/
def clamp01 (q : ℚ) : ℚ := max 0 (min 1 q)

theorem clamp01_mem (q : ℚ) : 0 ≤ clamp01 q ∧ clamp01 q ≤ 1 :=
  ⟨le_max_left 0 _, max_le (by norm_num) (min_le_left 1 q)⟩

/-- `needle in haystack` (Python substring test; the empty needle is always
contained). -/
def containsSub (needle hay : String) : Bool :=
  needle = "" ∨ (hay.splitOn needle).length ≥ 2

/-! ## Deterministic grader (`grade_response`)

The `checks` mapping is modelled by the `Checks` structure.  Each field
holds the effective value the source extracts with its
`checks.get(key) or []` / `isinstance` guards: a key that is absent,
falsy, or of the wrong type contributes no checks, which is exactly the
empty/`none` field value, and `str(item)` coercion of list items is
absorbed by quantifying over arbitrary strings.  `python_block` /
`python_ast_parse` record whether the key is literally `True`;
`max_lines` / `min_lines` record an `isinstance(.., int)` value (in
Python `True` also satisfies that test — callers map it to `1`). -/

/-- One `python_ast_call_kwargs` spec after the source's
`item if isinstance(item, dict) else {}` and `str(spec.get(..) or "")`
coercions.  `value = none` models the *sentinel* (key absent); an explicit
JSON `null` is `some .null`. -/
structure KwSpec where
  call : String
  kw : String
  value : Option J
deriving Repr

structure Checks where
  must_contain : List String := []
  must_not_contain : List String := []
  regex : List String := []
  must_not_regex : List String := []
  python_block : Bool := false
  python_ast_parse : Bool := false
  python_ast_calls : List String := []
  python_ast_call_kwargs : List KwSpec := []
  max_lines : Option ℤ := none
  min_lines : Option ℤ := none
deriving Repr

/-- One `ast.Call` node as the grader observes it: `call_name` (`None` for
calls whose function is neither a `Name` nor an `Attribute`) and the
keyword arguments with their `node_value` results. -/
structure CallInfo where
  name : Option String
  keywords : List (String × J)
deriving Repr

structure AstInfo where
  calls : List CallInfo
deriving Repr

/-- Results of the external Python machinery for one fixed response text:
the regex oracle (`re.search(pattern, text)`; `Except.error` is the
`re.error` the source catches), the first extracted code block
(`python_source`, empty when no fenced block exists), and the result of
`ast.parse(python_source)`. -/
structure PyEnv where
  regexSearch : String → String → Except String Bool
  pythonSource : String
  astParse : Except String AstInfo

/-- `ensure_parsed`: empty source short-circuits with the fixed message,
otherwise the cached `ast.parse` outcome. -/
def ensureParsed (env : PyEnv) : Except String AstInfo :=
  if env.pythonSource.trim = "" then .error "No code block found for AST parsing"
  else env.astParse

/-- `content_line_count`: non-blank lines that are not code fences. -/
def contentLineCount (text : String) : ℕ :=
  ((text.splitOn "\n").filter
    (fun raw => raw.trim ≠ "" ∧ ¬ (raw.trim.startsWith "```"))).length

/-- Python `==` on JSON-shaped values: numeric types (including `bool`)
compare by value, everything else structurally.  (Numeric coercion inside
containers and dict order-insensitivity are not modelled; no claim depends
on them.) -/
def jNum? : J → Option ℚ
  | .bool b => some (if b then 1 else 0)
  | .int n => some (n : ℚ)
  | .float q => some q
  | _ => none

def jEqPy (a b : J) : Bool :=
  match jNum? a, jNum? b with
  | some x, some y => x == y
  | _, _ => a == b

/-- Breakdown entry `{value, ok}` (must_contain / must_not_contain). -/
structure VEntry where
  value : String
  ok : Bool
deriving Repr, BEq

/-- Breakdown entry `{value, ok, error}` (regex families and
python_ast_calls). -/
structure REntry where
  value : String
  ok : Bool
  error : Option String
deriving Repr, BEq, DecidableEq

/-- Breakdown entry `{required, ok}` (python_block). -/
structure PBEntry where
  required : Bool
  ok : Bool
deriving Repr, BEq

/-- Breakdown entry `{required, ok, error}` (python_ast_parse). -/
structure PAEntry where
  required : Bool
  ok : Bool
  error : Option String
deriving Repr, BEq

/-- Breakdown entry for python_ast_call_kwargs. -/
structure KwEntry where
  call : String
  kw : String
  value : Option J
  observed : List J
  ok : Bool
  error : Option String
deriving Repr, BEq

/-- Breakdown entry `{value, line_count, ok}` (max_lines / min_lines). -/
structure LinesEntry where
  value : ℤ
  line_count : ℕ
  ok : Bool
deriving Repr, BEq

structure DetDetails where
  must_contain : List VEntry
  must_not_contain : List VEntry
  regex : List REntry
  must_not_regex : List REntry
  python_block : List PBEntry
  python_ast_parse : List PAEntry
  python_ast_calls : List REntry
  python_ast_call_kwargs : List KwEntry
  max_lines : List LinesEntry
  min_lines : List LinesEntry
deriving Repr

def mustContainEntries (resp : String) (xs : List String) : List VEntry :=
  xs.map fun v => ⟨v, containsSub v resp⟩

def mustNotContainEntries (resp : String) (xs : List String) : List VEntry :=
  xs.map fun v => ⟨v, !containsSub v resp⟩

def regexEntry (env : PyEnv) (resp p : String) : REntry :=
  match env.regexSearch p resp with
  | .ok b => ⟨p, b, none⟩
  | .error e => ⟨p, false, some e⟩

def regexEntries (env : PyEnv) (resp : String) (xs : List String) : List REntry :=
  xs.map (regexEntry env resp)

def mustNotRegexEntry (env : PyEnv) (resp p : String) : REntry :=
  match env.regexSearch p resp with
  | .ok b => ⟨p, !b, none⟩
  | .error e => ⟨p, false, some e⟩

def mustNotRegexEntries (env : PyEnv) (resp : String) (xs : List String) : List REntry :=
  xs.map (mustNotRegexEntry env resp)

def pythonBlockEntries (env : PyEnv) (required : Bool) : List PBEntry :=
  if required then [⟨true, env.pythonSource.trim ≠ ""⟩] else []

def astParseEntries (env : PyEnv) (required : Bool) : List PAEntry :=
  if required then
    match ensureParsed env with
    | .ok _ => [⟨true, true, none⟩]
    | .error e => [⟨true, false, some e⟩]
  else []

def astCallsEntries (env : PyEnv) (xs : List String) : List REntry :=
  xs.map fun x =>
    match ensureParsed env with
    | .ok info => ⟨x, (info.calls.filterMap (·.name)).contains x, none⟩
    | .error e => ⟨x, false, some e⟩

/-- The inner scan of `python_ast_call_kwargs`: walk the call nodes in
order, skip calls whose name differs from a non-empty expected name,
collect the observed values of matching keywords, succeed when the spec
carries no expected value or some observed value equals it; stop at the
first call that succeeds. -/
def kwScan (spec : KwSpec) (calls : List CallInfo) : List J × Bool :=
  match calls with
  | [] => ([], false)
  | c :: rest =>
    if spec.call ≠ "" ∧ c.name ≠ some spec.call then kwScan spec rest
    else
      let obs := c.keywords.filterMap fun kv => if kv.1 = spec.kw then some kv.2 else none
      let ok := obs.any fun v =>
        match spec.value with
        | none => true
        | some ve => jEqPy v ve
      if ok then (obs, true)
      else
        let (obs', ok') := kwScan spec rest
        (obs ++ obs', ok')

def kwEntries (env : PyEnv) (specs : List KwSpec) : List KwEntry :=
  specs.map fun s =>
    match ensureParsed env with
    | .ok info =>
      let (obs, ok) := kwScan s info.calls
      ⟨s.call, s.kw, s.value, obs, ok, none⟩
    | .error e => ⟨s.call, s.kw, s.value, [], false, some e⟩

def maxLinesEntries (resp : String) (m : Option ℤ) : List LinesEntry :=
  match m with
  | some v => if 0 ≤ v then [⟨v, contentLineCount resp, (contentLineCount resp : ℤ) ≤ v⟩] else []
  | none => []

def minLinesEntries (resp : String) (m : Option ℤ) : List LinesEntry :=
  match m with
  | some v => if 0 ≤ v then [⟨v, contentLineCount resp, v ≤ (contentLineCount resp : ℤ)⟩] else []
  | none => []

def detDetails (env : PyEnv) (resp : String) (c : Checks) : DetDetails where
  must_contain := mustContainEntries resp c.must_contain
  must_not_contain := mustNotContainEntries resp c.must_not_contain
  regex := regexEntries env resp c.regex
  must_not_regex := mustNotRegexEntries env resp c.must_not_regex
  python_block := pythonBlockEntries env c.python_block
  python_ast_parse := astParseEntries env c.python_ast_parse
  python_ast_calls := astCallsEntries env c.python_ast_calls
  python_ast_call_kwargs := kwEntries env c.python_ast_call_kwargs
  max_lines := maxLinesEntries resp c.max_lines
  min_lines := minLinesEntries resp c.min_lines

/-- The per-check outcomes in the exact order the source increments
`total`/`passed`. -/
def detOks (env : PyEnv) (resp : String) (c : Checks) : List Bool :=
  let d := detDetails env resp c
  d.must_contain.map (·.ok) ++ d.must_not_contain.map (·.ok)
    ++ d.regex.map (·.ok) ++ d.must_not_regex.map (·.ok)
    ++ d.python_block.map (·.ok) ++ d.python_ast_parse.map (·.ok)
    ++ d.python_ast_calls.map (·.ok) ++ d.python_ast_call_kwargs.map (·.ok)
    ++ d.max_lines.map (·.ok) ++ d.min_lines.map (·.ok)

/-- The source's `total` counter. -/
def detTotal (env : PyEnv) (resp : String) (c : Checks) : ℕ :=
  (detOks env resp c).length

/-- The source's `passed` counter. -/
def detPassed (env : PyEnv) (resp : String) (c : Checks) : ℕ :=
  (detOks env resp c).count true

/-- `grade_response(response_text, checks)`: `(pass, score, breakdown)`.
With zero configured checks the verdict degrades to non-emptiness of the
stripped response; otherwise `pass = (passed == total)` and
`score = passed/total`. -/
def grade_response (env : PyEnv) (resp : String) (c : Checks) :
    Bool × ℚ × DetDetails :=
  let d := detDetails env resp c
  let total := detTotal env resp c
  let passed := detPassed env resp c
  if total = 0 then
    (resp.trim ≠ "", if resp.trim = "" then 0 else 1, d)
  else
    (passed == total, (passed : ℚ) / (total : ℚ), d)

/-! ## Trace grader (`grade_trace_checks`)

`trace_checks` stays a raw mapping (`List (String × J)`) because the
combination step tests the *dict's truthiness* (`if trace_checks:`), which
the structure encoding would erase.  The getters mirror
`trace_checks.get(key) or []` on well-typed values: only string entries of
an array value are kept (any other truthy value would raise `TypeError`
inside `re.search`/`str.lower` in the source, aborting the worker — a
malformed-definition corner outside every claim). -/

abbrev TraceDict := List (String × J)

def tdStrs (tc : TraceDict) (k : String) : List String :=
  match pget tc k with
  | some (.arr xs) => xs.filterMap fun j => match j with | .str s => some s | _ => none
  | _ => []

/-- `isinstance(max_empty, int)` — Python counts `bool` as `int`. -/
def tdInt (tc : TraceDict) (k : String) : Option ℤ :=
  match pget tc k with
  | some (.int n) => some n
  | some (.bool b) => some (if b then 1 else 0)
  | _ => none

/-- Extracted trace features, as `grade_trace_checks` consumes them. -/
structure TraceFeatures where
  commands : List String := []
  domains_used : List String := []
  open_page_empty_count : ℤ := 0
deriving Repr

/-- Breakdown entry `{domain, ok, observed}`. -/
structure DomEntry where
  domain : String
  ok : Bool
deriving Repr, BEq

/-- Breakdown entry `{max, actual, ok}`. -/
structure MaxEmptyEntry where
  max : ℤ
  actual : ℤ
  ok : Bool
deriving Repr, BEq

structure TraceDetails where
  must_command_regex : List REntry
  must_not_command_regex : List REntry
  must_domain_used : List DomEntry
  must_not_domain_used : List DomEntry
  max_empty_open_page_events : List MaxEmptyEntry
deriving Repr

/-- Regex entry over the joined command text (`re.IGNORECASE` search is
part of the oracle `rx`). -/
def cmdRegexEntry (rx : String → String → Except String Bool)
    (joined p : String) : REntry :=
  match rx p joined with
  | .ok b => ⟨p, b, none⟩
  | .error e => ⟨p, false, some e⟩

def cmdRegexEntries (rx : String → String → Except String Bool)
    (joined : String) (xs : List String) : List REntry :=
  xs.map (cmdRegexEntry rx joined)

def cmdNotRegexEntry (rx : String → String → Except String Bool)
    (joined p : String) : REntry :=
  match rx p joined with
  | .ok b => ⟨p, !b, none⟩
  | .error e => ⟨p, false, some e⟩

def cmdNotRegexEntries (rx : String → String → Except String Bool)
    (joined : String) (xs : List String) : List REntry :=
  xs.map (cmdNotRegexEntry rx joined)

def domainUsedEntries (domains : List String) (xs : List String) : List DomEntry :=
  xs.map fun d => ⟨d, domains.any fun obs => containsSub d.toLower obs⟩

def domainNotUsedEntries (domains : List String) (xs : List String) : List DomEntry :=
  xs.map fun d => ⟨d, !(domains.any fun obs => containsSub d.toLower obs)⟩

def maxEmptyEntries (tc : TraceDict) (feats : TraceFeatures) : List MaxEmptyEntry :=
  match tdInt tc "max_empty_open_page_events" with
  | some m =>
    let actual := if feats.open_page_empty_count = 0 then 0 else feats.open_page_empty_count
    [⟨m, actual, actual ≤ m⟩]
  | none => []

def traceDetails (rx : String → String → Except String Bool)
    (tc : TraceDict) (feats : TraceFeatures) : TraceDetails :=
  let joined := String.intercalate "\n" feats.commands
  { must_command_regex := cmdRegexEntries rx joined (tdStrs tc "must_command_regex")
    must_not_command_regex := cmdNotRegexEntries rx joined (tdStrs tc "must_not_command_regex")
    must_domain_used := domainUsedEntries feats.domains_used (tdStrs tc "must_domain_used")
    must_not_domain_used := domainNotUsedEntries feats.domains_used (tdStrs tc "must_not_domain_used")
    max_empty_open_page_events := maxEmptyEntries tc feats }

def traceOks (rx : String → String → Except String Bool)
    (tc : TraceDict) (feats : TraceFeatures) : List Bool :=
  let d := traceDetails rx tc feats
  d.must_command_regex.map (·.ok) ++ d.must_not_command_regex.map (·.ok)
    ++ d.must_domain_used.map (·.ok) ++ d.must_not_domain_used.map (·.ok)
    ++ d.max_empty_open_page_events.map (·.ok)

def traceTotal (rx : String → String → Except String Bool)
    (tc : TraceDict) (feats : TraceFeatures) : ℕ :=
  (traceOks rx tc feats).length

def tracePassed (rx : String → String → Except String Bool)
    (tc : TraceDict) (feats : TraceFeatures) : ℕ :=
  (traceOks rx tc feats).count true

/-- `grade_trace_checks(trace_checks, trace_features)`:
`(pass, score, details)`; zero configured checks give `(True, 1.0)`. -/
def grade_trace_checks (rx : String → String → Except String Bool)
    (tc : TraceDict) (feats : TraceFeatures) : Bool × ℚ × TraceDetails :=
  let d := traceDetails rx tc feats
  let total := traceTotal rx tc feats
  let passed := tracePassed rx tc feats
  if total = 0 then (true, 1, d)
  else (passed == total, (passed : ℚ) / (total : ℚ), d)

/-! ## Oracle grader (`grade_response_oracle`, post-parse section)

Only the part after a judge payload has been parsed is modelled (the
judge invocation itself is a second `run_harness` subprocess).  `minRaw`
is `oracle_cfg.get("min_score")`. -/

structure OracleG where
  ok : Bool
  pass_bool : Bool
  score : ℚ
  threshold : ℚ
deriving Repr

/-- Lines 801-827 of the source: clamp the configured threshold and the
judge score into `[0,1]`, read the judge's `pass` with
`default = (score >= min_score)`, then force `pass` false whenever
`score < min_score`. -/
def gradeOracleParsed (parsed : Payload) (minRaw : Option J) : OracleG :=
  let minScore := clamp01 (parse_float minRaw (4/5))
  let score := clamp01 (parse_float (pget parsed "score") 0)
  let passBool0 := parse_bool (pget parsed "pass") (decide (minScore ≤ score))
  let passBool := if score < minScore then false else passBool0
  ⟨true, passBool, score, minScore⟩

/-! ## Harness payload finishing (`run_harness`, lines 589-625)

The subprocess has returned; `payload?` is the last stdout line that
parsed as a JSON object (`none` when no line did).  The synthetic payload,
the four `setdefault`s, the `command_exit_code` stamp, and the
exit-code-overrides-self-report rule are modelled verbatim. -/

def syntheticPayload (harness : String) (elapsedMs : ℤ) (rawOut stdoutTail stderrTail : String) :
    Payload :=
  [("ok", .bool false),
   ("harness", .str harness),
   ("error", .str "Harness did not emit JSON payload"),
   ("response_text", .str ""),
   ("latency_ms", .int elapsedMs),
   ("stdout_tail", .str stdoutTail),
   ("stderr_tail", .str stderrTail),
   ("raw_ref", .str rawOut)]

def finishPayload (harness : String) (elapsedMs : ℤ) (rawOut stdoutTail stderrTail : String)
    (returncode : ℤ) (payload? : Option Payload) : Payload :=
  let p0 :=
    match payload? with
    | some p => p
    | none => syntheticPayload harness elapsedMs rawOut stdoutTail stderrTail
  let p1 := psetdefault p0 "harness" (.str harness)
  let p2 := psetdefault p1 "latency_ms" (.int elapsedMs)
  let p3 := psetdefault p2 "response_text" (.str "")
  let p4 := psetdefault p3 "raw_ref" (.str rawOut)
  let p5 := pset p4 "command_exit_code" (.int returncode)
  -- `payload.get("ok") is True`: identity with the boolean `True` object.
  let okIsTrue : Bool :=
    match pget p5 "ok" with
    | some (.bool true) => true
    | _ => false
  if returncode ≠ 0 ∧ okIsTrue then
    pset (pset p5 "ok" (.bool false)) "error"
      (.str ("Harness command exited with code " ++ toString returncode))
  else p5

/-! ## Combination policy (`run_case_for_harness`, lines 1899-1954) -/

inductive GMode where
  | deterministic
  | oracle
  | hybrid
deriving Repr, DecidableEq

/-- Combine the three graders into the row's `(pass_bool, score,
grading_source)`.  `tc` is the raw trace-checks mapping (its truthiness —
non-emptiness — gates the averaging), `og` the oracle grade (`og.ok =
false` both for "not attempted" and for a failed judge call). -/
def combineRow (mode : GMode) (strict : Bool) (oracleRequested : Bool) (og : OracleG)
    (detPass : Bool) (detScore : ℚ) (tc : TraceDict) (tracePass : Bool) (traceScore : ℚ) :
    Bool × ℚ × String :=
  let combinedPass := detPass && tracePass
  let combinedScore := if tc.isEmpty then detScore else (detScore + traceScore) / 2
  let source := if tc.isEmpty then "deterministic" else "deterministic+trace"
  match mode with
  | .deterministic => (combinedPass, combinedScore, source)
  | .oracle =>
    if oracleRequested && og.ok then (og.pass_bool, og.score, "oracle")
    else if oracleRequested && strict then (false, 0, "oracle_strict_error")
    else if oracleRequested then (combinedPass, combinedScore, "deterministic_fallback")
    else (combinedPass, combinedScore, source)
  | .hybrid =>
    if oracleRequested && og.ok then
      (detPass && og.pass_bool, clamp01 ((detScore + og.score) / 2), "hybrid")
    else if oracleRequested && strict then (false, 0, "hybrid_strict_error")
    else if oracleRequested then (combinedPass, combinedScore, "deterministic_fallback")
    else (combinedPass, combinedScore, source)

/-- The oracle grade a row sees: `gradeOracleParsed` on a successful judge
call, a dead grade (`ok = false`, unused fields zeroed) otherwise. -/
def rowOracleG (oracleOk : Bool) (parsed : Payload) (minRaw : Option J) : OracleG :=
  if oracleOk then gradeOracleParsed parsed minRaw else ⟨false, false, 0, 0⟩

/-- The persisted row's score for one work item, composing the graders
exactly as `run_case_for_harness` does. -/
def rowScore (mode : GMode) (strict oracleRequested oracleOk : Bool)
    (parsed : Payload) (minRaw : Option J)
    (env : PyEnv) (rx : String → String → Except String Bool)
    (resp : String) (c : Checks) (tc : TraceDict) (feats : TraceFeatures) : ℚ :=
  let det := grade_response env resp c
  let tr := grade_trace_checks rx tc feats
  (combineRow mode strict oracleRequested (rowOracleG oracleOk parsed minRaw)
    det.1 det.2.1 tc tr.1 tr.2.1).2.1

/-! ## Scheduler row ordering (`main`, lines 2056-2067)

`worker_count = min(max_workers, len(variants)) if variants else 1`.  The
serial branch persists rows in enumeration order; the parallel branch
iterates `as_completed(futures)` and persists each result as it completes,
so the persisted order is the workers' completion order.  `completion` is
that completion order, an arbitrary permutation of `range n`; the function
returns the variant indices in the order their rows reach the ledger. -/

def persistedOrder (maxWorkers n : ℕ) (completion : List ℕ) : List ℕ :=
  let workerCount := if n = 0 then 1 else min maxWorkers n
  if workerCount ≤ 1 ∨ n ≤ 1 then List.range n
  else completion

/-! ## Fail-fast registry (`run_case_for_harness` lines 1788-1797,
`persist_row` lines 2039-2050)

A run is modelled as its work items processed in dispatch order, each
dispatched (consulting the shared `failed_harnesses` registry) and then
persisted (possibly registering a new failure).  `wouldBe` is the result
`run_harness` would produce if the item were actually invoked. -/

def variantKeyOf (harness model : String) : String :=
  harness ++ "::" ++ (if model = "" then "default" else model)

structure HarnessOutcome where
  ok : Bool
  error : Option String
deriving Repr

structure WorkItem where
  harness : String
  model : String
  wouldBe : HarnessOutcome
deriving Repr

def WorkItem.key (w : WorkItem) : String := variantKeyOf w.harness w.model

/-- A persisted row, reduced to the fields the fail-fast claims mention
(plus `invoked`, recording whether the harness process was spawned). -/
structure FRow where
  key : String
  harnessOk : Bool
  harnessError : Option String
  invoked : Bool
deriving Repr

abbrev Registry := List (String × String)

def regLookup (reg : Registry) (k : String) : Option String :=
  match reg with
  | [] => none
  | (k', v) :: rest => if k' = k then some v else regLookup rest k

def regSet (reg : Registry) (k v : String) : Registry :=
  match reg with
  | [] => [(k, v)]
  | (k', v') :: rest => if k' = k then (k', v) :: rest else (k', v') :: regSet rest k v

/-- Dispatch of one work item: under fail-fast, a registered key yields the
synthetic skip row without invoking the harness. -/
def dispatchItem (failfast : Bool) (reg : Registry) (w : WorkItem) : FRow :=
  match failfast, regLookup reg w.key with
  | true, some prev =>
    ⟨w.key, false, some ("failfast_skip: " ++ prev), false⟩
  | _, _ =>
    ⟨w.key, w.wouldBe.ok, w.wouldBe.error, true⟩

/-- Python `s.startswith(p)`, as a prefix test on the character lists. -/
def strStartsWith (s p : String) : Bool := p.data.isPrefixOf s.data

/-- `str(row.get("harness_error") or "").startswith("failfast_skip:")`. -/
def isFailfastSkipErr (e : Option String) : Bool :=
  strStartsWith (e.getD "") "failfast_skip:"

/-- `str(row.get("harness_error") or "unknown error")`. -/
def errStringOf (e : Option String) : String :=
  match e with
  | some s => if s = "" then "unknown error" else s
  | none => "unknown error"

/-- `persist_row`'s registry update: a non-skip harness failure registers
its error under the row's (harness, model) key. -/
def persistUpdate (failfast : Bool) (reg : Registry) (row : FRow) : Registry :=
  if failfast ∧ row.harnessOk = false ∧ isFailfastSkipErr row.harnessError = false then
    regSet reg row.key (errStringOf row.harnessError)
  else reg

/-- Process the work items of a run in dispatch order, threading the
shared registry (each item is dispatched, then persisted); returns the
final registry and the persisted rows. -/
def runItems (failfast : Bool) (reg : Registry) : List WorkItem → Registry × List FRow
  | [] => (reg, [])
  | w :: ws =>
    let row := dispatchItem failfast reg w
    let rest := runItems failfast (persistUpdate failfast reg row) ws
    (rest.1, row :: rest.2)

def runRows (failfast : Bool) (reg : Registry) (items : List WorkItem) : List FRow :=
  (runItems failfast reg items).2

/-! ## Skills materializer (`materialize_skills`, lines 369-425)

The filesystem enters as `fs : skill name → Option content` (the content
of `<root>/.agents/skills/<skill>/SKILL.md`, `none` when absent) and
`sha256 ... hexdigest` as an abstract `hash` function. -/

structure ManifestEntry where
  skill : String
  path : String
  sha256 : String
deriving Repr, BEq, DecidableEq

structure SkillsCfg where
  skills_enabled : Bool
  skills_profile : String
  skills_manifest : List ManifestEntry
  skills_prompt_text : String
  skills_dir : String
deriving Repr

/-- `summarize_skill_text`: strip, truncate to 1200 chars with `"..."`. -/
def summarizeSkillText (text : String) : String :=
  let body := text.trim
  if body.length ≤ 1200 then body
  else (body.take 1197) ++ "..."

def skillSrcPath (root skill : String) : String :=
  root ++ "/.agents/skills/" ++ skill ++ "/SKILL.md"

def materialize_skills (fs : String → Option String) (hash : String → String)
    (root outDir profile : String) (skillNames : List String) (enabled : Bool) : SkillsCfg :=
  let modeName := if enabled then "on" else "off"
  let dir := outDir ++ "/effective_skills/" ++ profile ++ "-" ++ modeName
  if enabled = false then
    { skills_enabled := false
      skills_profile := profile
      skills_manifest := []
      skills_prompt_text := ""
      skills_dir := dir }
  else
    let entries := skillNames.map fun s =>
      match fs s with
      | none => ManifestEntry.mk s (skillSrcPath root s) "missing"
      | some raw => ManifestEntry.mk s (skillSrcPath root s) (hash raw)
    let blocks := skillNames.filterMap fun s =>
      (fs s).map fun raw => "[skill:" ++ s ++ "]\n" ++ summarizeSkillText raw
    { skills_enabled := true
      skills_profile := profile
      skills_manifest := entries
      skills_prompt_text := String.intercalate "\n\n" blocks
      skills_dir := dir }

/-! ## Payload lemmas -/

theorem pget_append (p q : Payload) (k : String) :
    pget (p ++ q) k = match pget p k with | some v => some v | none => pget q k := by
  induction p with
  | nil => rfl
  | cons hd tl ih =>
    obtain ⟨k', v⟩ := hd
    by_cases h : k' = k <;> simp [pget, h, ih]

theorem pget_pset_self (p : Payload) (k : String) (v : J) :
    pget (pset p k v) k = some v := by
  induction p with
  | nil => simp [pset, pget]
  | cons hd tl ih =>
    obtain ⟨k', v'⟩ := hd
    by_cases h : k' = k <;> simp [pset, pget, h, ih]

theorem pget_pset_other (p : Payload) (k k' : String) (v : J) (h : k' ≠ k) :
    pget (pset p k' v) k = pget p k := by
  induction p with
  | nil => simp [pset, pget, h]
  | cons hd tl ih =>
    obtain ⟨k'', v''⟩ := hd
    by_cases h2 : k'' = k' <;> by_cases h3 : k'' = k <;>
      simp_all [pset, pget]

theorem pget_psetdefault_self (p : Payload) (k : String) (v : J) :
    pget (psetdefault p k v) k = some ((pget p k).getD v) := by
  unfold psetdefault
  cases hp : pget p k with
  | some w => simp [hp]
  | none => simp [pget_append, hp, pget]

theorem pget_psetdefault_other (p : Payload) (k k' : String) (v : J) (h : k' ≠ k) :
    pget (psetdefault p k' v) k = pget p k := by
  unfold psetdefault
  cases hp : pget p k' with
  | some w => rfl
  | none =>
    rw [pget_append]
    cases hq : pget p k with
    | some w => rfl
    | none => simp [pget, h]

/-- Reading any key other than the defaulted ones and `command_exit_code`
through the setdefault chain and the exit-code stamp is reading the
original payload. -/
theorem pget_stamped (harness : String) (elapsedMs : ℤ) (rawOut : String) (rc : ℤ)
    (p : Payload) (k : String)
    (h1 : "harness" ≠ k) (h2 : "latency_ms" ≠ k) (h3 : "response_text" ≠ k)
    (h4 : "raw_ref" ≠ k) (h5 : "command_exit_code" ≠ k) :
    pget (pset (psetdefault (psetdefault (psetdefault (psetdefault p "harness" (.str harness))
      "latency_ms" (.int elapsedMs)) "response_text" (.str "")) "raw_ref" (.str rawOut))
      "command_exit_code" (.int rc)) k = pget p k := by
  rw [pget_pset_other _ _ _ _ h5, pget_psetdefault_other _ _ _ _ h4,
    pget_psetdefault_other _ _ _ _ h3, pget_psetdefault_other _ _ _ _ h2,
    pget_psetdefault_other _ _ _ _ h1]

/-- C6 counterexample: the claim says a missing latency field is filled
with *zero* latency; the source fills it with the measured elapsed
milliseconds (`payload.setdefault("latency_ms", elapsed_ms)`), so an
invocation that took 1234 ms and whose payload lacks `latency_ms` reports
1234, not 0. -/
theorem run_harness_latency_default_counterexample :
    pget (finishPayload "claude" 1234 "raw.log" "" "" 0 (some [("ok", .bool true)]))
        "latency_ms" = some (.int 1234)
    ∧ some (J.int 1234) ≠ some (J.int 0) :=
  ⟨rfl, by simp⟩

/-- C6 (amended): for every harness invocation whose stdout yields a parsed
JSON payload, the fields harness name, latency, response text, and
raw-transcript reference are defaulted to the invoked harness name, the
*measured elapsed milliseconds* of the subprocess, empty response text, and
the raw-transcript path exactly when missing from the payload, and are left
unchanged when present (`Option.getD` states both directions at once). -/
theorem run_harness_payload_defaults (harness : String) (elapsedMs : ℤ)
    (rawOut stdoutTail stderrTail : String) (returncode : ℤ) (p : Payload) :
    pget (finishPayload harness elapsedMs rawOut stdoutTail stderrTail returncode (some p))
        "harness" = some ((pget p "harness").getD (.str harness))
    ∧ pget (finishPayload harness elapsedMs rawOut stdoutTail stderrTail returncode (some p))
        "latency_ms" = some ((pget p "latency_ms").getD (.int elapsedMs))
    ∧ pget (finishPayload harness elapsedMs rawOut stdoutTail stderrTail returncode (some p))
        "response_text" = some ((pget p "response_text").getD (.str ""))
    ∧ pget (finishPayload harness elapsedMs rawOut stdoutTail stderrTail returncode (some p))
        "raw_ref" = some ((pget p "raw_ref").getD (.str rawOut)) := by
  refine ⟨?_, ?_, ?_, ?_⟩ <;> simp only [finishPayload] <;> split
  · rw [pget_pset_other _ "harness" "error" _ (by decide),
      pget_pset_other _ "harness" "ok" _ (by decide),
      pget_pset_other _ "harness" "command_exit_code" _ (by decide),
      pget_psetdefault_other _ "harness" "raw_ref" _ (by decide),
      pget_psetdefault_other _ "harness" "response_text" _ (by decide),
      pget_psetdefault_other _ "harness" "latency_ms" _ (by decide),
      pget_psetdefault_self]
  · rw [pget_pset_other _ "harness" "command_exit_code" _ (by decide),
      pget_psetdefault_other _ "harness" "raw_ref" _ (by decide),
      pget_psetdefault_other _ "harness" "response_text" _ (by decide),
      pget_psetdefault_other _ "harness" "latency_ms" _ (by decide),
      pget_psetdefault_self]
  · rw [pget_pset_other _ "latency_ms" "error" _ (by decide),
      pget_pset_other _ "latency_ms" "ok" _ (by decide),
      pget_pset_other _ "latency_ms" "command_exit_code" _ (by decide),
      pget_psetdefault_other _ "latency_ms" "raw_ref" _ (by decide),
      pget_psetdefault_other _ "latency_ms" "response_text" _ (by decide),
      pget_psetdefault_self,
      pget_psetdefault_other _ "latency_ms" "harness" _ (by decide)]
  · rw [pget_pset_other _ "latency_ms" "command_exit_code" _ (by decide),
      pget_psetdefault_other _ "latency_ms" "raw_ref" _ (by decide),
      pget_psetdefault_other _ "latency_ms" "response_text" _ (by decide),
      pget_psetdefault_self,
      pget_psetdefault_other _ "latency_ms" "harness" _ (by decide)]
  · rw [pget_pset_other _ "response_text" "error" _ (by decide),
      pget_pset_other _ "response_text" "ok" _ (by decide),
      pget_pset_other _ "response_text" "command_exit_code" _ (by decide),
      pget_psetdefault_other _ "response_text" "raw_ref" _ (by decide),
      pget_psetdefault_self,
      pget_psetdefault_other _ "response_text" "latency_ms" _ (by decide),
      pget_psetdefault_other _ "response_text" "harness" _ (by decide)]
  · rw [pget_pset_other _ "response_text" "command_exit_code" _ (by decide),
      pget_psetdefault_other _ "response_text" "raw_ref" _ (by decide),
      pget_psetdefault_self,
      pget_psetdefault_other _ "response_text" "latency_ms" _ (by decide),
      pget_psetdefault_other _ "response_text" "harness" _ (by decide)]
  · rw [pget_pset_other _ "raw_ref" "error" _ (by decide),
      pget_pset_other _ "raw_ref" "ok" _ (by decide),
      pget_pset_other _ "raw_ref" "command_exit_code" _ (by decide),
      pget_psetdefault_self,
      pget_psetdefault_other _ "raw_ref" "response_text" _ (by decide),
      pget_psetdefault_other _ "raw_ref" "latency_ms" _ (by decide),
      pget_psetdefault_other _ "raw_ref" "harness" _ (by decide)]
  · rw [pget_pset_other _ "raw_ref" "command_exit_code" _ (by decide),
      pget_psetdefault_self,
      pget_psetdefault_other _ "raw_ref" "response_text" _ (by decide),
      pget_psetdefault_other _ "raw_ref" "latency_ms" _ (by decide),
      pget_psetdefault_other _ "raw_ref" "harness" _ (by decide)]

/-- C5 counterexample: a payload whose `ok` field is the truthy non-boolean
`1` keeps claiming success even though the subprocess exited with code 2 —
`payload.get("ok") is True` only overrides an `ok` that is exactly the
boolean `True`, so the persisted success flag (`bool(result.get("ok"))`) is
true despite the nonzero exit code, contradicting the claim that the
success flag is false for *every* nonzero-exit invocation. -/
theorem run_harness_exit_nonbool_ok_counterexample :
    pTruthy (pget (finishPayload "claude" 5 "raw.log" "" "" 2 (some [("ok", .int 1)])) "ok") = true
    ∧ pget (finishPayload "claude" 5 "raw.log" "" "" 2 (some [("ok", .int 1)]))
        "command_exit_code" = some (.int 2) :=
  ⟨rfl, rfl⟩

/-- C5 (amended): whenever the subprocess exits with a nonzero code and the
parsed payload's `ok` field is absent, `null`, or a boolean, the result's
success flag is false (an `ok` of exactly `true` is overwritten to false),
and the exit code is recorded in `command_exit_code` — the exit code is
authoritative over the payload's boolean self-report. -/
theorem run_harness_exit_code_authoritative (harness : String) (elapsedMs : ℤ)
    (rawOut stdoutTail stderrTail : String) (rc : ℤ) (payload? : Option Payload)
    (hrc : rc ≠ 0)
    (hok : ∀ p, payload? = some p →
      pget p "ok" = none ∨ pget p "ok" = some .null ∨ ∃ b, pget p "ok" = some (.bool b)) :
    pTruthy (pget (finishPayload harness elapsedMs rawOut stdoutTail stderrTail rc payload?)
        "ok") = false
    ∧ pget (finishPayload harness elapsedMs rawOut stdoutTail stderrTail rc payload?)
        "command_exit_code" = some (.int rc) := by
  have hne : ∀ (q : Payload), (pget q "ok" = none ∨ pget q "ok" = some .null
      ∨ pget q "ok" = some (.bool false) ∨ pget q "ok" = some (.bool true)) →
      pTruthy (pget (finishPayload harness elapsedMs rawOut stdoutTail stderrTail rc (some q))
        "ok") = false
      ∧ pget (finishPayload harness elapsedMs rawOut stdoutTail stderrTail rc (some q))
        "command_exit_code" = some (.int rc) := by
    intro q hq
    simp only [finishPayload]
    rw [pget_stamped _ _ _ _ _ _ (by decide) (by decide) (by decide) (by decide) (by decide)]
    rcases hq with h | h | h | h
    all_goals rw [h]
    case inr.inr.inr =>
      split
      · constructor
        · rw [pget_pset_other _ _ _ _ (by decide), pget_pset_self]
          rfl
        · rw [pget_pset_other _ _ _ _ (by decide), pget_pset_other _ _ _ _ (by decide),
            pget_pset_self]
      · rename_i hcond
        exact absurd ⟨hrc, rfl⟩ hcond
    all_goals
      split
      · rename_i hcond
        exact absurd hcond.2 (by simp)
      · constructor
        · rw [pget_stamped _ _ _ _ _ _ (by decide) (by decide) (by decide) (by decide)
            (by decide), h]
          rfl
        · rw [pget_pset_self]
  cases payload? with
  | none =>
    have := hne (syntheticPayload harness elapsedMs rawOut stdoutTail stderrTail)
      (Or.inr (Or.inr (Or.inl rfl)))
    simpa [finishPayload] using this
  | some p =>
    refine hne p ?_
    rcases hok p rfl with h | h | ⟨b, h⟩
    · exact Or.inl h
    · exact Or.inr (Or.inl h)
    · cases b
      · exact Or.inr (Or.inr (Or.inl h))
      · exact Or.inr (Or.inr (Or.inr h))

/-- Witness for C5 (amended) at a concrete payload: `ok = true`, exit
code 3. -/
theorem run_harness_exit_code_authoritative_witness :
    pTruthy (pget (finishPayload "claude" 7 "raw.log" "" "" 3 (some [("ok", .bool true)]))
        "ok") = false
    ∧ pget (finishPayload "claude" 7 "raw.log" "" "" 3 (some [("ok", .bool true)]))
        "command_exit_code" = some (.int 3) :=
  run_harness_exit_code_authoritative "claude" 7 "raw.log" "" "" 3 (some [("ok", .bool true)])
    (by decide) (fun p hp => by cases hp; exact Or.inr (Or.inr ⟨true, rfl⟩))

/-! ## Deterministic-grader theorems -/

/-- C1: for every response text and checks configuration, whenever at least
one check is configured (`total > 0`) the deterministic grader's score is
exactly `passed/total` and its pass flag holds iff `passed == total`; with
zero configured checks, pass degrades to non-emptiness of the stripped
response and the score is `1` when pass else `0`. -/
theorem grade_response_score_spec (env : PyEnv) (resp : String) (c : Checks) :
    (0 < detTotal env resp c →
      (grade_response env resp c).2.1
          = (detPassed env resp c : ℚ) / (detTotal env resp c : ℚ)
      ∧ ((grade_response env resp c).1 = true ↔ detPassed env resp c = detTotal env resp c))
    ∧ (detTotal env resp c = 0 →
      ((grade_response env resp c).1 = true ↔ resp.trim ≠ "")
      ∧ (grade_response env resp c).2.1
          = (if (grade_response env resp c).1 = true then 1 else 0)) := by
  constructor
  · intro h
    have hne : detTotal env resp c ≠ 0 := Nat.pos_iff_ne_zero.mp h
    constructor
    · simp [grade_response, if_neg hne]
    · simp [grade_response, if_neg hne]
  · intro h
    simp only [grade_response, if_pos h]
    constructor
    · simp
    · by_cases he : resp.trim = "" <;> simp [he]

/-- A trivial analysis environment for witnesses: every regex matches and
there is no code block. -/
def envOkRx : PyEnv := ⟨fun _ _ => .ok true, "", .error "unused"⟩

/-- Witness for C1 at one configured regex check. -/
theorem grade_response_score_spec_witness :
    (grade_response envOkRx "GRAPHISTRY_OK" { regex := ["GRAPHISTRY"] }).2.1
        = (detPassed envOkRx "GRAPHISTRY_OK" { regex := ["GRAPHISTRY"] } : ℚ)
          / (detTotal envOkRx "GRAPHISTRY_OK" { regex := ["GRAPHISTRY"] } : ℚ)
    ∧ ((grade_response envOkRx "GRAPHISTRY_OK" { regex := ["GRAPHISTRY"] }).1 = true
        ↔ detPassed envOkRx "GRAPHISTRY_OK" { regex := ["GRAPHISTRY"] }
            = detTotal envOkRx "GRAPHISTRY_OK" { regex := ["GRAPHISTRY"] }) :=
  (grade_response_score_spec envOkRx "GRAPHISTRY_OK" { regex := ["GRAPHISTRY"] }).1 (by decide)

/-! ## Oracle-grader theorem -/

/-- C3: for every successfully parsed judge payload, the oracle score is
clamped into `[0,1]` and the pass flag can only be true when both the
judge's self-report (defaulting to `score ≥ threshold` when `pass` is
absent or unusable) and `score ≥ threshold` hold; in particular a judge
answering `{"pass": true, "score": 0.6}` under `min_score = 0.8` does not
pass. -/
theorem oracle_clamp_and_threshold (parsed : Payload) (minRaw : Option J) :
    (0 ≤ (gradeOracleParsed parsed minRaw).score ∧ (gradeOracleParsed parsed minRaw).score ≤ 1)
    ∧ ((gradeOracleParsed parsed minRaw).pass_bool = true →
        parse_bool (pget parsed "pass")
          (decide ((gradeOracleParsed parsed minRaw).threshold
            ≤ (gradeOracleParsed parsed minRaw).score)) = true
        ∧ (gradeOracleParsed parsed minRaw).threshold ≤ (gradeOracleParsed parsed minRaw).score)
    ∧ (gradeOracleParsed [("pass", .bool true), ("score", .float (3/5))]
        (some (.float (4/5)))).pass_bool = false := by
  refine ⟨⟨(clamp01_mem _).1, (clamp01_mem _).2⟩, ?_, ?_⟩
  · intro hp
    by_cases hlt : clamp01 (parse_float (pget parsed "score") 0)
        < clamp01 (parse_float minRaw (4/5))
    · exact absurd hp (by simp [gradeOracleParsed, if_pos hlt])
    · constructor
      · simpa [gradeOracleParsed, if_neg hlt] using hp
      · exact le_of_not_lt hlt
  · have hs : pget [("pass", J.bool true), ("score", J.float (3/5))] "score"
        = some (.float (3/5)) := rfl
    have hlt : clamp01 ((3 : ℚ)/5) < clamp01 ((4 : ℚ)/5) := by
      unfold clamp01
      rw [min_eq_right (by norm_num), min_eq_right (by norm_num),
        max_eq_right (by norm_num), max_eq_right (by norm_num)]
      norm_num
    simp only [gradeOracleParsed, hs, parse_float]
    rw [if_pos hlt]

/-! ## Skills-materializer theorem -/

/-- C9: materializing the same profile, skill list, and mode twice into
different fresh output directories yields identical per-skill sha256
manifest entries (the manifest does not depend on the output directory),
and every missing skill is recorded with the `"missing"` sentinel instead
of aborting. -/
theorem materialize_skills_hash_idempotent (fs : String → Option String)
    (hash : String → String) (root out1 out2 profile : String)
    (names : List String) (enabled : Bool) :
    (materialize_skills fs hash root out1 profile names enabled).skills_manifest
      = (materialize_skills fs hash root out2 profile names enabled).skills_manifest
    ∧ (enabled = true → ∀ s ∈ names, fs s = none →
        ManifestEntry.mk s (skillSrcPath root s) "missing"
          ∈ (materialize_skills fs hash root out1 profile names enabled).skills_manifest) := by
  constructor
  · cases enabled <;> rfl
  · intro he s hs hfs
    subst he
    simp only [materialize_skills]
    norm_num
    exact ⟨s, hs, by rw [hfs]⟩

/-- Witness for C9: one missing skill gets the `"missing"` sentinel. -/
theorem materialize_skills_hash_idempotent_witness :
    ManifestEntry.mk "ghost" (skillSrcPath "/root" "ghost") "missing"
      ∈ (materialize_skills (fun _ => none) (fun _ => "h") "/root" "/outA" "default"
          ["ghost"] true).skills_manifest :=
  (materialize_skills_hash_idempotent (fun _ => none) (fun _ => "h") "/root" "/outA" "/outB"
    "default" ["ghost"] true).2 rfl "ghost" (List.mem_singleton.mpr rfl) rfl

/-! ## Scheduler ordering -/

/-- C2 (code-bug evidence): under a worker pool (`max_workers = 2`) with two
variants, the persisted row order is the workers' completion order, not the
original variant order — with completion order `[1, 0]` the ledger receives
the rows as `[1, 0]`, while the claim requires `[0, 1]` (`List.range 2`).
The source attaches `__harness_idx` to every row and pops it in
`persist_row` without ever sorting by it, and the parallel path persists
straight from `as_completed`. -/
theorem persisted_order_is_completion_order :
    persistedOrder 2 2 [1, 0] = [1, 0] ∧ persistedOrder 2 2 [1, 0] ≠ List.range 2 := by
  constructor
  · rfl
  · decide

/-! ## Trace-combination theorem -/

/-- C8: with an empty trace-checks mapping, the trace grader yields
`(pass = true, score = 1)` and the deterministic-mode combined score is the
deterministic score alone; as soon as at least one trace check is
configured, the combined pass is the conjunction of the deterministic and
trace passes and the combined score is their arithmetic mean. -/
theorem trace_combination_spec (env : PyEnv) (rx : String → String → Except String Bool)
    (resp : String) (c : Checks) (feats : TraceFeatures) (strict requested : Bool)
    (og : OracleG) (tc : TraceDict) :
    (tc = [] →
      (grade_trace_checks rx tc feats).1 = true
      ∧ (grade_trace_checks rx tc feats).2.1 = 1
      ∧ (combineRow .deterministic strict requested og
          (grade_response env resp c).1 (grade_response env resp c).2.1 tc
          (grade_trace_checks rx tc feats).1 (grade_trace_checks rx tc feats).2.1).2.1
          = (grade_response env resp c).2.1)
    ∧ (1 ≤ traceTotal rx tc feats →
      (combineRow .deterministic strict requested og
          (grade_response env resp c).1 (grade_response env resp c).2.1 tc
          (grade_trace_checks rx tc feats).1 (grade_trace_checks rx tc feats).2.1).1
          = ((grade_response env resp c).1 && (grade_trace_checks rx tc feats).1)
      ∧ (combineRow .deterministic strict requested og
          (grade_response env resp c).1 (grade_response env resp c).2.1 tc
          (grade_trace_checks rx tc feats).1 (grade_trace_checks rx tc feats).2.1).2.1
          = ((grade_response env resp c).2.1 + (grade_trace_checks rx tc feats).2.1) / 2) := by
  constructor
  · intro h
    subst h
    exact ⟨rfl, rfl, rfl⟩
  · intro h
    constructor
    · rfl
    · cases tc with
      | nil =>
        have h0 : traceTotal rx ([] : TraceDict) feats = 0 := rfl
        rw [h0] at h
        omega
      | cons hd tl => rfl

/-- Witness for C8: the empty mapping degrades to the deterministic score,
one configured `must_command_regex` check averages the two scores. -/
theorem trace_combination_spec_witness :
    ((grade_trace_checks (fun _ _ => Except.ok true) [] {}).1 = true
      ∧ (grade_trace_checks (fun _ _ => Except.ok true) [] {}).2.1 = 1
      ∧ (combineRow .deterministic false false ⟨false, false, 0, 0⟩
          (grade_response envOkRx "r" {}).1 (grade_response envOkRx "r" {}).2.1 []
          (grade_trace_checks (fun _ _ => Except.ok true) [] {}).1
          (grade_trace_checks (fun _ _ => Except.ok true) [] {}).2.1).2.1
          = (grade_response envOkRx "r" {}).2.1)
    ∧ ((combineRow .deterministic false false ⟨false, false, 0, 0⟩
          (grade_response envOkRx "r" {}).1 (grade_response envOkRx "r" {}).2.1
          [("must_command_regex", J.arr [J.str "git"])]
          (grade_trace_checks (fun _ _ => Except.ok true)
            [("must_command_regex", J.arr [J.str "git"])] {}).1
          (grade_trace_checks (fun _ _ => Except.ok true)
            [("must_command_regex", J.arr [J.str "git"])] {}).2.1).1
          = ((grade_response envOkRx "r" {}).1
            && (grade_trace_checks (fun _ _ => Except.ok true)
              [("must_command_regex", J.arr [J.str "git"])] {}).1)
      ∧ (combineRow .deterministic false false ⟨false, false, 0, 0⟩
          (grade_response envOkRx "r" {}).1 (grade_response envOkRx "r" {}).2.1
          [("must_command_regex", J.arr [J.str "git"])]
          (grade_trace_checks (fun _ _ => Except.ok true)
            [("must_command_regex", J.arr [J.str "git"])] {}).1
          (grade_trace_checks (fun _ _ => Except.ok true)
            [("must_command_regex", J.arr [J.str "git"])] {}).2.1).2.1
          = ((grade_response envOkRx "r" {}).2.1
            + (grade_trace_checks (fun _ _ => Except.ok true)
              [("must_command_regex", J.arr [J.str "git"])] {}).2.1) / 2) :=
  ⟨(trace_combination_spec envOkRx (fun _ _ => Except.ok true) "r" {} {} false false
      ⟨false, false, 0, 0⟩ []).1 rfl,
   (trace_combination_spec envOkRx (fun _ _ => Except.ok true) "r" {} {} false false
      ⟨false, false, 0, 0⟩ [("must_command_regex", J.arr [J.str "git"])]).2 (by decide)⟩

/-! ## Malformed-pattern handling -/

theorem regexEntry_value (env : PyEnv) (resp p : String) :
    (regexEntry env resp p).value = p := by
  unfold regexEntry; split <;> rfl

theorem mustNotRegexEntry_value (env : PyEnv) (resp p : String) :
    (mustNotRegexEntry env resp p).value = p := by
  unfold mustNotRegexEntry; split <;> rfl

theorem cmdRegexEntry_value (rx : String → String → Except String Bool) (joined p : String) :
    (cmdRegexEntry rx joined p).value = p := by
  unfold cmdRegexEntry; split <;> rfl

theorem cmdNotRegexEntry_value (rx : String → String → Except String Bool) (joined p : String) :
    (cmdNotRegexEntry rx joined p).value = p := by
  unfold cmdNotRegexEntry; split <;> rfl

theorem grade_response_details (env : PyEnv) (resp : String) (c : Checks) :
    (grade_response env resp c).2.2 = detDetails env resp c := by
  simp only [grade_response]
  split <;> rfl

theorem grade_trace_details (rx : String → String → Except String Bool)
    (tc : TraceDict) (feats : TraceFeatures) :
    (grade_trace_checks rx tc feats).2.2 = traceDetails rx tc feats := by
  simp only [grade_trace_checks]
  split <;> rfl

theorem length_pythonBlockEntries (env : PyEnv) (b : Bool) :
    (pythonBlockEntries env b).length = if b then 1 else 0 := by
  cases b <;> rfl

theorem length_astParseEntries (env : PyEnv) (b : Bool) :
    (astParseEntries env b).length = if b then 1 else 0 := by
  cases b with
  | false => rfl
  | true =>
    simp only [astParseEntries]
    cases h : ensureParsed env <;> simp [h]

/-- C7: a `regex` or `must_not_regex` pattern on which the regex engine
raises at compile time is recorded in the breakdown as a failed check
(`ok = false`) with the error attached, and every configured pattern —
malformed ones included — is counted in `total`; the same holds for
`must_command_regex` / `must_not_command_regex` in the trace grader.  (The
graders are total functions: the `re.error` is consumed into the entry and
never escapes, mirroring the source's `try/except re.error`.) -/
theorem malformed_regex_recorded_failed (env : PyEnv)
    (rx : String → String → Except String Bool) (resp : String) (c : Checks)
    (tc : TraceDict) (feats : TraceFeatures) (pat e : String) :
    (env.regexSearch pat resp = .error e →
      (∀ entry ∈ (grade_response env resp c).2.2.regex, entry.value = pat →
        entry.ok = false ∧ entry.error = some e)
      ∧ (∀ entry ∈ (grade_response env resp c).2.2.must_not_regex, entry.value = pat →
        entry.ok = false ∧ entry.error = some e))
    ∧ detTotal env resp c
        = c.must_contain.length + c.must_not_contain.length + c.regex.length
          + c.must_not_regex.length + (if c.python_block then 1 else 0)
          + (if c.python_ast_parse then 1 else 0) + c.python_ast_calls.length
          + c.python_ast_call_kwargs.length + (maxLinesEntries resp c.max_lines).length
          + (minLinesEntries resp c.min_lines).length
    ∧ (rx pat (String.intercalate "\n" feats.commands) = .error e →
      (∀ entry ∈ (grade_trace_checks rx tc feats).2.2.must_command_regex, entry.value = pat →
        entry.ok = false ∧ entry.error = some e)
      ∧ (∀ entry ∈ (grade_trace_checks rx tc feats).2.2.must_not_command_regex,
          entry.value = pat → entry.ok = false ∧ entry.error = some e)) := by
  refine ⟨?_, ?_, ?_⟩
  · intro h
    constructor
    · intro entry hmem hval
      rw [grade_response_details] at hmem
      simp only [detDetails, regexEntries] at hmem
      rcases List.mem_map.mp hmem with ⟨p, hp, rfl⟩
      rw [regexEntry_value] at hval
      subst hval
      simp [regexEntry, h]
    · intro entry hmem hval
      rw [grade_response_details] at hmem
      simp only [detDetails, mustNotRegexEntries] at hmem
      rcases List.mem_map.mp hmem with ⟨p, hp, rfl⟩
      rw [mustNotRegexEntry_value] at hval
      subst hval
      simp [mustNotRegexEntry, h]
  · simp only [detTotal, detOks, detDetails, List.length_append, List.length_map,
      mustContainEntries, mustNotContainEntries, regexEntries, mustNotRegexEntries,
      astCallsEntries, kwEntries, length_pythonBlockEntries, length_astParseEntries]
  · intro h
    constructor
    · intro entry hmem hval
      rw [grade_trace_details] at hmem
      simp only [traceDetails, cmdRegexEntries] at hmem
      rcases List.mem_map.mp hmem with ⟨p, hp, rfl⟩
      rw [cmdRegexEntry_value] at hval
      subst hval
      simp [cmdRegexEntry, h]
    · intro entry hmem hval
      rw [grade_trace_details] at hmem
      simp only [traceDetails, cmdNotRegexEntries] at hmem
      rcases List.mem_map.mp hmem with ⟨p, hp, rfl⟩
      rw [cmdNotRegexEntry_value] at hval
      subst hval
      simp [cmdNotRegexEntry, h]

/-- A regex oracle on which the single pattern `"("` fails to compile. -/
def rxBad : String → String → Except String Bool :=
  fun p _ => if p = "(" then .error "bad-pattern" else .ok true

/-- Analysis environment whose regex engine rejects `"("`. -/
def envBadRx : PyEnv := ⟨rxBad, "", .error "unused"⟩

/-- Witness for C7: the malformed pattern `"("` produces failed breakdown
entries with the error attached, in both graders, and is counted in the
deterministic total. -/
theorem malformed_regex_recorded_failed_witness :
    ((REntry.mk "(" false (some "bad-pattern")).ok = false
      ∧ (REntry.mk "(" false (some "bad-pattern")).error = some "bad-pattern")
    ∧ ((REntry.mk "(" false (some "bad-pattern")).ok = false
      ∧ (REntry.mk "(" false (some "bad-pattern")).error = some "bad-pattern")
    ∧ detTotal envBadRx "x" { regex := ["("], must_not_regex := ["("] } = 2 := by
  have h := malformed_regex_recorded_failed envBadRx rxBad "x"
    { regex := ["("], must_not_regex := ["("] }
    [("must_command_regex", J.arr [J.str "("])] {} "(" "bad-pattern"
  refine ⟨(h.1 rfl).1 _ (List.Mem.head _) rfl, ((h.2.2 rfl).1 _ (List.Mem.head _) rfl), ?_⟩
  rw [h.2.1]
  decide

/-! ## Score bounds -/

theorem detScore_bounds (env : PyEnv) (resp : String) (c : Checks) :
    0 ≤ (grade_response env resp c).2.1 ∧ (grade_response env resp c).2.1 ≤ 1 := by
  simp only [grade_response]
  split
  · by_cases he : resp.trim = "" <;> simp [he]
  · rename_i h
    constructor
    · positivity
    · rw [div_le_one (by exact_mod_cast Nat.pos_of_ne_zero h)]
      exact_mod_cast List.count_le_length _ _

theorem traceScore_bounds (rx : String → String → Except String Bool)
    (tc : TraceDict) (feats : TraceFeatures) :
    0 ≤ (grade_trace_checks rx tc feats).2.1 ∧ (grade_trace_checks rx tc feats).2.1 ≤ 1 := by
  simp only [grade_trace_checks]
  split
  · norm_num
  · rename_i h
    constructor
    · positivity
    · rw [div_le_one (by exact_mod_cast Nat.pos_of_ne_zero h)]
      exact_mod_cast List.count_le_length _ _

theorem rowOracleG_score_bounds (oracleOk : Bool) (parsed : Payload) (minRaw : Option J) :
    0 ≤ (rowOracleG oracleOk parsed minRaw).score
    ∧ (rowOracleG oracleOk parsed minRaw).score ≤ 1 := by
  unfold rowOracleG
  split
  · exact clamp01_mem _
  · norm_num

/-- C10: every persisted row's score lies in `[0,1]`, for every grading
mode, strictness, oracle request/outcome combination, judge payload, and
checks/trace-checks configuration: the deterministic `passed/total`, the
trace score, the clamped oracle score, the deterministic+trace average,
the strict-mode `0`, and the clamped hybrid average are all bounded. -/
theorem row_score_in_unit_interval (mode : GMode) (strict requested oracleOk : Bool)
    (parsed : Payload) (minRaw : Option J) (env : PyEnv)
    (rx : String → String → Except String Bool) (resp : String) (c : Checks)
    (tc : TraceDict) (feats : TraceFeatures) :
    0 ≤ rowScore mode strict requested oracleOk parsed minRaw env rx resp c tc feats
    ∧ rowScore mode strict requested oracleOk parsed minRaw env rx resp c tc feats ≤ 1 := by
  simp only [rowScore]
  have hd := detScore_bounds env resp c
  have ht := traceScore_bounds rx tc feats
  have ho := rowOracleG_score_bounds oracleOk parsed minRaw
  generalize hds : (grade_response env resp c).2.1 = ds at hd ⊢
  generalize hts : (grade_trace_checks rx tc feats).2.1 = ts at ht ⊢
  generalize hog : rowOracleG oracleOk parsed minRaw = og at ho ⊢
  have hcomb : 0 ≤ (if tc.isEmpty then ds else (ds + ts) / 2)
      ∧ (if tc.isEmpty then ds else (ds + ts) / 2) ≤ 1 := by
    cases htc : tc.isEmpty
    · rw [if_neg Bool.false_ne_true]
      exact ⟨by linarith [hd.1, ht.1], by linarith [hd.2, ht.2]⟩
    · rw [if_pos rfl]
      exact hd
  rcases mode with _ | _ | _ <;> simp only [combineRow]
  · exact hcomb
  · split_ifs
    · exact ho
    · constructor <;> norm_num
    · exact hd
    · constructor <;> linarith [hd.1, hd.2, ht.1, ht.2]
    · exact hd
    · constructor <;> linarith [hd.1, hd.2, ht.1, ht.2]
  · split_ifs
    · exact clamp01_mem _
    · constructor <;> norm_num
    · exact hd
    · constructor <;> linarith [hd.1, hd.2, ht.1, ht.2]
    · exact hd
    · constructor <;> linarith [hd.1, hd.2, ht.1, ht.2]

/-! ## Fail-fast lemmas -/

theorem regLookup_regSet_self (reg : Registry) (k v : String) :
    regLookup (regSet reg k v) k = some v := by
  induction reg with
  | nil => simp [regSet, regLookup]
  | cons hd tl ih =>
    obtain ⟨k', v'⟩ := hd
    by_cases h : k' = k <;> simp [regSet, regLookup, h, ih]

theorem regLookup_regSet_other (reg : Registry) (k k' v : String) (h : k' ≠ k) :
    regLookup (regSet reg k' v) k = regLookup reg k := by
  induction reg with
  | nil => simp [regSet, regLookup, h]
  | cons hd tl ih =>
    obtain ⟨k'', v''⟩ := hd
    by_cases h2 : k'' = k' <;> by_cases h3 : k'' = k <;> simp_all [regSet, regLookup]

theorem regLookup_regSet_isSome (reg : Registry) (k k' v : String)
    (h : (regLookup reg k).isSome) : (regLookup (regSet reg k' v) k).isSome := by
  by_cases hk : k' = k
  · subst hk
    rw [regLookup_regSet_self]
    rfl
  · rw [regLookup_regSet_other _ _ _ _ hk]
    exact h

theorem persistUpdate_isSome (ff : Bool) (reg : Registry) (row : FRow) (k : String)
    (h : (regLookup reg k).isSome) : (regLookup (persistUpdate ff reg row) k).isSome := by
  unfold persistUpdate
  split
  · exact regLookup_regSet_isSome _ _ _ _ h
  · exact h

/-- Any error message built with the `"failfast_skip: "` prefix passes the
`startswith("failfast_skip:")` test. -/
theorem ffs_prefix (prev : String) :
    strStartsWith ("failfast_skip: " ++ prev) "failfast_skip:" = true := by
  unfold strStartsWith
  rw [String.data_append]
  show List.isPrefixOf ['f','a','i','l','f','a','s','t','_','s','k','i','p',':']
    (['f','a','i','l','f','a','s','t','_','s','k','i','p',':',' '] ++ prev.data) = true
  simp [List.isPrefixOf]

theorem dispatchItem_key (ff : Bool) (reg : Registry) (w : WorkItem) :
    (dispatchItem ff reg w).key = w.key := by
  unfold dispatchItem
  split <;> rfl

theorem dispatchItem_registered (reg : Registry) (w : WorkItem)
    (h : (regLookup reg w.key).isSome) :
    (dispatchItem true reg w).harnessOk = false
    ∧ isFailfastSkipErr (dispatchItem true reg w).harnessError = true
    ∧ (dispatchItem true reg w).invoked = false := by
  unfold dispatchItem
  cases hl : regLookup reg w.key with
  | none => rw [hl] at h; simp at h
  | some prev => exact ⟨rfl, ffs_prefix prev, rfl⟩

theorem dispatchItem_unregistered (reg : Registry) (w : WorkItem)
    (h : regLookup reg w.key = none) :
    dispatchItem true reg w = ⟨w.key, w.wouldBe.ok, w.wouldBe.error, true⟩ := by
  unfold dispatchItem
  rw [h]

theorem runRows_cons (ff : Bool) (reg : Registry) (w : WorkItem) (ws : List WorkItem) :
    runRows ff reg (w :: ws)
      = dispatchItem ff reg w
        :: runRows ff (persistUpdate ff reg (dispatchItem ff reg w)) ws := rfl

/-- Once the registry holds a work item's key, under fail-fast every later
item with that key yields a synthetic skip row. -/
theorem runRows_skip_of_registered (k : String) (ws : List WorkItem) (reg : Registry)
    (hk : (regLookup reg k).isSome) (j : ℕ) (w : WorkItem)
    (hw : ws.get? j = some w) (hkey : w.key = k) (r : FRow)
    (hr : (runRows true reg ws).get? j = some r) :
    r.harnessOk = false ∧ isFailfastSkipErr r.harnessError = true ∧ r.invoked = false := by
  induction ws generalizing reg j with
  | nil => simp at hw
  | cons hd tl ih =>
    rw [runRows_cons] at hr
    cases j with
    | zero =>
      rw [List.get?_cons_zero] at hw hr
      have hw' : hd = w := Option.some.inj hw
      subst hw'
      have hr' : dispatchItem true reg hd = r := Option.some.inj hr
      subst hr'
      exact dispatchItem_registered reg hd (by rw [hkey]; exact hk)
    | succ j' =>
      rw [List.get?_cons_succ] at hw hr
      exact ih (persistUpdate true reg (dispatchItem true reg hd))
        (persistUpdate_isSome _ _ _ _ hk) j' hw hr

/-- Fail-fast suppression: after a non-skip harness failure of some key,
every later item with the same key comes back as a `failfast_skip` row
without being invoked. -/
theorem runRows_failfast_suppresses (reg0 : Registry) (items : List WorkItem)
    (i j : ℕ) (wi wj : WorkItem) (ri rj : FRow)
    (hij : i < j)
    (hwi : items.get? i = some wi) (hwj : items.get? j = some wj)
    (hkey : wj.key = wi.key)
    (hri : (runRows true reg0 items).get? i = some ri)
    (hrj : (runRows true reg0 items).get? j = some rj)
    (hfail : ri.harnessOk = false) (hnskip : isFailfastSkipErr ri.harnessError = false) :
    rj.harnessOk = false ∧ isFailfastSkipErr rj.harnessError = true ∧ rj.invoked = false := by
  induction items generalizing reg0 i j with
  | nil => simp at hwi
  | cons hd tl ih =>
    rw [runRows_cons] at hri hrj
    cases i with
    | zero =>
      rw [List.get?_cons_zero] at hwi hri
      have hwi' : hd = wi := Option.some.inj hwi
      subst hwi'
      have hri' : dispatchItem true reg0 hd = ri := Option.some.inj hri
      subst hri'
      cases j with
      | zero => omega
      | succ j' =>
        rw [List.get?_cons_succ] at hwj hrj
        have hreg : (regLookup (persistUpdate true reg0 (dispatchItem true reg0 hd))
            wj.key).isSome := by
          unfold persistUpdate
          rw [if_pos ⟨rfl, hfail, hnskip⟩, dispatchItem_key, hkey, regLookup_regSet_self]
          rfl
        exact runRows_skip_of_registered wj.key tl _ hreg j' wj hwj rfl rj hrj
    | succ i' =>
      cases j with
      | zero => omega
      | succ j' =>
        rw [List.get?_cons_succ] at hwi hwj hri hrj
        exact ih (persistUpdate true reg0 (dispatchItem true reg0 hd)) i' j'
          (by omega) hwi hwj hri hrj

/-- No suppression without a prior non-skip harness failure of the same
key: the item is dispatched normally (invoked, reporting `wouldBe`). -/
theorem runRows_no_suppression (reg0 : Registry) (items : List WorkItem)
    (j : ℕ) (wj : WorkItem) (rj : FRow)
    (hwj : items.get? j = some wj)
    (hrj : (runRows true reg0 items).get? j = some rj)
    (hreg0 : regLookup reg0 wj.key = none)
    (hclean : ∀ i wi ri, i < j → items.get? i = some wi →
      (runRows true reg0 items).get? i = some ri → wi.key = wj.key →
      ¬(ri.harnessOk = false ∧ isFailfastSkipErr ri.harnessError = false)) :
    rj = ⟨wj.key, wj.wouldBe.ok, wj.wouldBe.error, true⟩ := by
  induction items generalizing reg0 j with
  | nil => simp at hwj
  | cons hd tl ih =>
    rw [runRows_cons] at hrj
    cases j with
    | zero =>
      rw [List.get?_cons_zero] at hwj hrj
      have hwj' : hd = wj := Option.some.inj hwj
      subst hwj'
      have hrj' : dispatchItem true reg0 hd = rj := Option.some.inj hrj
      subst hrj'
      exact dispatchItem_unregistered reg0 hd hreg0
    | succ j' =>
      rw [List.get?_cons_succ] at hwj hrj
      have hreg1 : regLookup (persistUpdate true reg0 (dispatchItem true reg0 hd))
          wj.key = none := by
        unfold persistUpdate
        split
        · rename_i hcond
          by_cases hk : (dispatchItem true reg0 hd).key = wj.key
          · exfalso
            refine hclean 0 hd (dispatchItem true reg0 hd) (Nat.succ_pos j')
              List.get?_cons_zero ?_ ?_ ⟨hcond.2.1, hcond.2.2⟩
            · rw [runRows_cons, List.get?_cons_zero]
            · rw [← dispatchItem_key true reg0 hd]
              exact hk
          · rw [regLookup_regSet_other _ _ _ _ hk]
            exact hreg0
        · exact hreg0
      refine ih (persistUpdate true reg0 (dispatchItem true reg0 hd)) j' hwj hrj hreg1 ?_
      intro i wi ri hij hwi hri hkeq
      exact hclean (i + 1) wi ri (by omega)
        (by rw [List.get?_cons_succ]; exact hwi)
        (by rw [runRows_cons, List.get?_cons_succ]; exact hri) hkeq

/-- C4: under fail-fast, once a (harness, model) pair's work item persists
a row with `harness_ok = false` whose error is not itself a
`failfast_skip:` message, every later work item of that exact pair in the
same run comes back with `harness_ok = false`, a `failfast_skip:`-prefixed
error, and no harness invocation; conversely an item none of whose
same-key predecessors produced a non-skip harness failure (grading
failures keep `harness_ok = true` and thus never register) is invoked
normally and reports its genuine harness outcome, so other (harness,
model) pairs are unaffected. -/
theorem failfast_suppression_spec :
    (∀ (reg0 : Registry) (items : List WorkItem) (i j : ℕ) (wi wj : WorkItem) (ri rj : FRow),
      i < j → items.get? i = some wi → items.get? j = some wj → wj.key = wi.key →
      (runRows true reg0 items).get? i = some ri →
      (runRows true reg0 items).get? j = some rj →
      ri.harnessOk = false → isFailfastSkipErr ri.harnessError = false →
      rj.harnessOk = false ∧ isFailfastSkipErr rj.harnessError = true ∧ rj.invoked = false)
    ∧ (∀ (reg0 : Registry) (items : List WorkItem) (j : ℕ) (wj : WorkItem) (rj : FRow),
      items.get? j = some wj → (runRows true reg0 items).get? j = some rj →
      regLookup reg0 wj.key = none →
      (∀ i wi ri, i < j → items.get? i = some wi →
        (runRows true reg0 items).get? i = some ri → wi.key = wj.key →
        ¬(ri.harnessOk = false ∧ isFailfastSkipErr ri.harnessError = false)) →
      rj = ⟨wj.key, wj.wouldBe.ok, wj.wouldBe.error, true⟩) :=
  ⟨fun reg0 items i j wi wj ri rj hij hwi hwj hkey hri hrj hfail hnskip =>
      runRows_failfast_suppresses reg0 items i j wi wj ri rj hij hwi hwj hkey hri hrj
        hfail hnskip,
    fun reg0 items j wj rj hwj hrj hreg hclean =>
      runRows_no_suppression reg0 items j wj rj hwj hrj hreg hclean⟩

/-- A failing claude item, a later claude item, and a codex item. -/
def wFail : WorkItem := ⟨"claude", "", ⟨false, some "boom"⟩⟩

def wNext : WorkItem := ⟨"claude", "", ⟨true, none⟩⟩

def wOther : WorkItem := ⟨"codex", "m1", ⟨true, none⟩⟩

/-- Witness for C4 on a concrete three-item run: the second claude item is
skipped with a `failfast_skip:` error and no invocation, while the codex
item (a different pair) runs normally. -/
theorem failfast_suppression_spec_witness :
    (runRows true [] [wFail, wNext, wOther]).get? 1
        = some (FRow.mk "claude::default" false (some "failfast_skip: boom") false)
    ∧ ((FRow.mk "claude::default" false (some "failfast_skip: boom") false).harnessOk = false
      ∧ isFailfastSkipErr
          (FRow.mk "claude::default" false (some "failfast_skip: boom") false).harnessError
            = true
      ∧ (FRow.mk "claude::default" false (some "failfast_skip: boom") false).invoked = false)
    ∧ FRow.mk "codex::m1" true none true
        = ⟨wOther.key, wOther.wouldBe.ok, wOther.wouldBe.error, true⟩ :=
  ⟨rfl,
    failfast_suppression_spec.1 [] [wFail, wNext, wOther] 0 1 wFail wNext
      (FRow.mk "claude::default" false (some "boom") true)
      (FRow.mk "claude::default" false (some "failfast_skip: boom") false)
      (by decide) rfl rfl rfl rfl rfl rfl (by decide),
    failfast_suppression_spec.2 [] [wFail, wNext, wOther] 2 wOther
      (FRow.mk "codex::m1" true none true) rfl rfl rfl
      (by
        intro i wi ri hi hwi hri hk
        match i, hi with
        | 0, _ =>
          cases hwi
          exact absurd hk (by decide)
        | 1, _ =>
          cases hwi
          exact absurd hk (by decide))⟩

end AgentEval
